import Mathlib

/-!
Shallow embedding of the `vertex_agent` package: the conversation
orchestrator `Agent.prompt` from `agent.py` and the transport client
`APIClient.call_gemini_api` from `api_client.py`.

Modelling conventions:
* JSON values are the inductive `JValue`; `json.loads` is an abstract
  parser `String → Option JValue` (an external library, `Option.none`
  standing for a raised `JSONDecodeError`).
* The remote endpoint is a script: a list of `Except String GeminiResponse`
  consumed one entry per request; `Except.error` stands for a raised
  `HTTPError`.  A run that needs more responses than the script holds
  evaluates to `Option.none` (the Python loop would still be waiting on
  the transport).
* The collaborators whose source files are not part of the repository
  snapshot (`tool_processor.py`, `variable_manager.py`) appear only
  through their interface, as oracle fields of `ToolProcessor`.
* Python's in-place mutation of the caller-supplied
  `conversation_history` list is rendered by an explicit `ContentsRef`
  recording which list object the payload's `contents` entry aliases,
  plus the final value of that list.
-/

namespace VertexAgent

/-- JSON-like values exchanged with the model and produced by tools. -/
inductive JValue where
  | null
  | bool (b : Bool)
  | num (n : Int)
  | str (s : String)
  | arr (elems : List JValue)
  | obj (fields : List (String × JValue))

mutual

/-- Boolean structural equality on `JValue`. -/
def JValue.beq : JValue → JValue → Bool
  | JValue.null, JValue.null => true
  | JValue.bool a, JValue.bool b => a == b
  | JValue.num a, JValue.num b => a == b
  | JValue.str a, JValue.str b => a == b
  | JValue.arr a, JValue.arr b => JValue.beqList a b
  | JValue.obj a, JValue.obj b => JValue.beqObj a b
  | _, _ => false

/-- Boolean equality on lists of `JValue`. -/
def JValue.beqList : List JValue → List JValue → Bool
  | [], [] => true
  | x :: xs, y :: ys => JValue.beq x y && JValue.beqList xs ys
  | _, _ => false

/-- Boolean equality on JSON object field lists. -/
def JValue.beqObj : List (String × JValue) → List (String × JValue) → Bool
  | [], [] => true
  | (k1, v1) :: xs, (k2, v2) :: ys =>
      k1 == k2 && JValue.beq v1 v2 && JValue.beqObj xs ys
  | _, _ => false

end

mutual

theorem JValue.eq_of_beq : ∀ (a b : JValue), JValue.beq a b = true → a = b
  | JValue.null, JValue.null, _ => rfl
  | JValue.bool a, JValue.bool b, h => by
      have hab : a = b := by simpa [JValue.beq] using h
      rw [hab]
  | JValue.num a, JValue.num b, h => by
      have hab : a = b := by simpa [JValue.beq] using h
      rw [hab]
  | JValue.str a, JValue.str b, h => by
      have hab : a = b := by simpa [JValue.beq] using h
      rw [hab]
  | JValue.arr a, JValue.arr b, h => by
      have hab := JValue.eqList_of_beqList a b (by simpa [JValue.beq] using h)
      rw [hab]
  | JValue.obj a, JValue.obj b, h => by
      have hab := JValue.eqObj_of_beqObj a b (by simpa [JValue.beq] using h)
      rw [hab]
  | JValue.null, JValue.bool _, h => by simp [JValue.beq] at h
  | JValue.null, JValue.num _, h => by simp [JValue.beq] at h
  | JValue.null, JValue.str _, h => by simp [JValue.beq] at h
  | JValue.null, JValue.arr _, h => by simp [JValue.beq] at h
  | JValue.null, JValue.obj _, h => by simp [JValue.beq] at h
  | JValue.bool _, JValue.null, h => by simp [JValue.beq] at h
  | JValue.bool _, JValue.num _, h => by simp [JValue.beq] at h
  | JValue.bool _, JValue.str _, h => by simp [JValue.beq] at h
  | JValue.bool _, JValue.arr _, h => by simp [JValue.beq] at h
  | JValue.bool _, JValue.obj _, h => by simp [JValue.beq] at h
  | JValue.num _, JValue.null, h => by simp [JValue.beq] at h
  | JValue.num _, JValue.bool _, h => by simp [JValue.beq] at h
  | JValue.num _, JValue.str _, h => by simp [JValue.beq] at h
  | JValue.num _, JValue.arr _, h => by simp [JValue.beq] at h
  | JValue.num _, JValue.obj _, h => by simp [JValue.beq] at h
  | JValue.str _, JValue.null, h => by simp [JValue.beq] at h
  | JValue.str _, JValue.bool _, h => by simp [JValue.beq] at h
  | JValue.str _, JValue.num _, h => by simp [JValue.beq] at h
  | JValue.str _, JValue.arr _, h => by simp [JValue.beq] at h
  | JValue.str _, JValue.obj _, h => by simp [JValue.beq] at h
  | JValue.arr _, JValue.null, h => by simp [JValue.beq] at h
  | JValue.arr _, JValue.bool _, h => by simp [JValue.beq] at h
  | JValue.arr _, JValue.num _, h => by simp [JValue.beq] at h
  | JValue.arr _, JValue.str _, h => by simp [JValue.beq] at h
  | JValue.arr _, JValue.obj _, h => by simp [JValue.beq] at h
  | JValue.obj _, JValue.null, h => by simp [JValue.beq] at h
  | JValue.obj _, JValue.bool _, h => by simp [JValue.beq] at h
  | JValue.obj _, JValue.num _, h => by simp [JValue.beq] at h
  | JValue.obj _, JValue.str _, h => by simp [JValue.beq] at h
  | JValue.obj _, JValue.arr _, h => by simp [JValue.beq] at h

theorem JValue.eqList_of_beqList :
    ∀ (a b : List JValue), JValue.beqList a b = true → a = b
  | [], [], _ => rfl
  | x :: xs, y :: ys, h => by
      have hsplit : JValue.beq x y = true ∧ JValue.beqList xs ys = true := by
        simpa [JValue.beqList, Bool.and_eq_true] using h
      have h1 := JValue.eq_of_beq x y hsplit.1
      have h2 := JValue.eqList_of_beqList xs ys hsplit.2
      rw [h1, h2]
  | [], _ :: _, h => by simp [JValue.beqList] at h
  | _ :: _, [], h => by simp [JValue.beqList] at h

theorem JValue.eqObj_of_beqObj :
    ∀ (a b : List (String × JValue)), JValue.beqObj a b = true → a = b
  | [], [], _ => rfl
  | (k1, v1) :: xs, (k2, v2) :: ys, h => by
      have hsplit : (k1 == k2) = true ∧ JValue.beq v1 v2 = true ∧
          JValue.beqObj xs ys = true := by
        simpa [JValue.beqObj, Bool.and_eq_true, and_assoc] using h
      have h0 : k1 = k2 := by simpa using hsplit.1
      have h1 := JValue.eq_of_beq v1 v2 hsplit.2.1
      have h2 := JValue.eqObj_of_beqObj xs ys hsplit.2.2
      rw [h0, h1, h2]
  | [], _ :: _, h => by simp [JValue.beqObj] at h
  | _ :: _, [], h => by simp [JValue.beqObj] at h

end

mutual

theorem JValue.beq_refl : ∀ (a : JValue), JValue.beq a a = true
  | JValue.null => rfl
  | JValue.bool a => by simp [JValue.beq]
  | JValue.num a => by simp [JValue.beq]
  | JValue.str a => by simp [JValue.beq]
  | JValue.arr a => by simpa [JValue.beq] using JValue.beqList_refl a
  | JValue.obj a => by simpa [JValue.beq] using JValue.beqObj_refl a

theorem JValue.beqList_refl : ∀ (a : List JValue), JValue.beqList a a = true
  | [] => rfl
  | x :: xs => by
      simp [JValue.beqList, JValue.beq_refl x, JValue.beqList_refl xs]

theorem JValue.beqObj_refl : ∀ (a : List (String × JValue)), JValue.beqObj a a = true
  | [] => rfl
  | (k, v) :: xs => by
      simp [JValue.beqObj, JValue.beq_refl v, JValue.beqObj_refl xs]

end

instance : DecidableEq JValue := fun a b =>
  if h : JValue.beq a b = true then isTrue (JValue.eq_of_beq a b h)
  else isFalse (fun hh => h (hh ▸ JValue.beq_refl a))

/-- Python `type(x).__name__` for the values a tool can return
(`content_type` tag in `agent.py`). -/
def pyTypeName : JValue → String
  | JValue.null => "NoneType"
  | JValue.bool _ => "bool"
  | JValue.num _ => "int"
  | JValue.str _ => "str"
  | JValue.arr _ => "list"
  | JValue.obj _ => "dict"

/-- Body of a `functionResponse` part: either the success record
`{content, key, content_type}` or `{error}` (agent.py lines 171-177,
191-200, 213-218). -/
inductive FuncResponse where
  | ok (content : JValue) (key : String) (content_type : String)
  | err (msg : String)
deriving DecidableEq

/-- One part of a content: `{text}`, `{functionCall}` or
`{functionResponse}`.  `agent.py` tests the keys in that order; the
`args` key of a function call may be absent (`fc.get("args", {})`). -/
inductive Part where
  | text (s : String)
  | functionCall (name : String) (args : Option JValue)
  | functionResponse (name : String) (resp : FuncResponse)
deriving DecidableEq

/-- Role of a transcript turn. -/
inductive Role where
  | user
  | model
deriving DecidableEq

/-- One turn of the conversation transcript: `{"role": ..., "parts": [...]}`. -/
structure Turn where
  role : Role
  parts : List Part
deriving DecidableEq

/-- One entry of `ToolProcessor.get_tools_json()`: a declarative tool
schema (name and description are all the orchestrator reads). -/
structure ToolDecl where
  name : String
  description : String
deriving DecidableEq

/-- Modelled from the spec: the `ToolProcessor` collaborator
(`tool_processor.py` is not in the repository snapshot; §4.2/§4.3 give
its contract).  `toolsJson` is `get_tools_json()`, `hasTool` is
`has_tool`, `executeTool` is `execute_tool` returning
`(function_result, variable_name)` or raising (rendered as
`Except.error`), and `intermediateResults` is the transient
`_intermediate_results` result-naming scope that `Agent.prompt`
assigns `{}` to at call start. -/
structure ToolProcessor where
  toolsJson : List ToolDecl
  hasTool : String → Bool
  executeTool : String → JValue → Except String (JValue × String)
  intermediateResults : List (String × JValue)

/-- The `promptFeedback` object of a response; only `blockReason` is read. -/
structure Feedback where
  blockReason : Option String
deriving DecidableEq

/-- The `content` object of a candidate. -/
structure Content where
  parts : List Part
deriving DecidableEq

/-- One candidate of a response; the `content` key may be absent, in
which case `candidate["content"]` raises `KeyError`. -/
structure Candidate where
  content : Option Content
deriving DecidableEq

/-- A decoded endpoint response.  A missing `candidates` key and an
empty candidate list are indistinguishable to the code
(`response_data.get("candidates")` is falsy for both). -/
structure GeminiResponse where
  candidates : List Candidate
  promptFeedback : Option Feedback
deriving DecidableEq

/-- One transport round-trip: the decoded response, or the message of a
raised `requests.exceptions.HTTPError`. -/
abbrev ApiResult := Except String GeminiResponse

/-- The request payload assembled by `Agent.prompt` (agent.py lines
111-133).  `tools`, `toolConfig` and `generationConfig` are optional
keys; `toolConfig` holds the function-calling mode and
`generationConfig` the `response_mime_type`. -/
structure Payload where
  system_instruction : List Part
  contents : List Turn
  tools : Option (List ToolDecl)
  toolConfig : Option String
  generationConfig : Option String
deriving DecidableEq

/-- Error message for an unknown tool (agent.py line 169). -/
def unknownToolMsg (name : String) : String :=
  "Model attempted to call unknown function " ++ name ++ "."

/-- Error message for a tool that raised (agent.py line 212). -/
def execErrorMsg (name e : String) : String :=
  "Error during execution of tool " ++ name ++ ": " ++ e

/-- Text turn announcing the result variable (agent.py line 205). -/
def storedVarMsg (variable_name : String) : String :=
  "the return value of the function stored in the variable " ++ variable_name

/-- Whether a part carries a `functionCall` key. -/
def Part.isFunctionCall : Part → Bool
  | Part.functionCall _ _ => true
  | _ => false

/-- The `has_more_function_calls` check of agent.py lines 227-230:
`content["parts"].index(part)` locates the FIRST part equal to the
current one, then the remainder of the list is scanned for a
function call. -/
def hasMoreFunctionCalls (allParts : List Part) (part : Part) : Bool :=
  (allParts.drop (allParts.indexOf part + 1)).any Part.isFunctionCall

/-- Outcome of the `for part in content["parts"]` scan: a final text
was reached (the function returns), or all parts were consumed and the
`while` loop continues. -/
inductive PartsOutcome where
  | finalText (s : String) (contents : List Turn)
  | exhausted (contents : List Turn)
deriving DecidableEq

/-- The transcript accumulated by a scan outcome. -/
def PartsOutcome.contents : PartsOutcome → List Turn
  | PartsOutcome.finalText _ c => c
  | PartsOutcome.exhausted c => c

/-- The `for part in content["parts"]` body of agent.py lines 160-246,
threading the mutated `payload["contents"]`.  `allParts` is the full
part list (used by the `index`-based look-ahead); scanning proceeds on
the remaining parts. -/
def processParts (tp : ToolProcessor) (allParts : List Part) :
    List Part → List Turn → PartsOutcome
  | [], contents => PartsOutcome.exhausted contents
  | part :: rest, contents =>
    match part with
    | Part.functionCall name args =>
      let contents1 := contents ++ [⟨Role.model, [Part.functionCall name args]⟩]
      if tp.hasTool name then
        match tp.executeTool name (args.getD (JValue.obj [])) with
        | Except.ok (function_result, variable_name) =>
          processParts tp allParts rest
            (contents1
              ++ [⟨Role.user, [Part.text (storedVarMsg variable_name)]⟩]
              ++ [⟨Role.user, [Part.functionResponse name
                    (FuncResponse.ok function_result variable_name
                      (pyTypeName function_result))]⟩])
        | Except.error e =>
          processParts tp allParts rest
            (contents1 ++ [⟨Role.user,
              [Part.functionResponse name (FuncResponse.err (execErrorMsg name e))]⟩])
      else
        processParts tp allParts rest
          (contents1 ++ [⟨Role.user,
            [Part.functionResponse name (FuncResponse.err (unknownToolMsg name))]⟩])
    | Part.text s =>
      if hasMoreFunctionCalls allParts (Part.text s) then
        processParts tp allParts rest contents
      else
        PartsOutcome.finalText s contents
    | Part.functionResponse _ _ =>
      processParts tp allParts rest contents

/-- A value returned by `Agent.prompt`: a plain final text, a parsed
structured value, or the `{"error": {...}}` dictionary. -/
inductive ErrorDetails where
  | noDetails
  | feedbackDetails (fb : Option Feedback)
  | responseDetails (resp : GeminiResponse)
deriving DecidableEq

/-- The caller-facing result of `Agent.prompt`. -/
inductive PromptResult where
  | text (s : String)
  | json (v : JValue)
  | error (message : String) (details : ErrorDetails)
deriving DecidableEq

/-- Observable outcome of a run: the returned value, the final value of
the shared `payload["contents"]` list, and the snapshots of every
payload handed to `call_gemini_api`, in send order. -/
structure RunResult where
  result : PromptResult
  contents : List Turn
  sent : List Payload
deriving DecidableEq

/-- The reshaping instruction of `_format_as_json` (agent.py line 271). -/
def formattingPrompt (final_text : String) : String :=
  "Based on our conversation above, please format your response as JSON. Here is the current response: "
    ++ final_text

/-- The `formatting_payload` dictionary of `_format_as_json` (agent.py
lines 261-275): the accumulated contents plus a reshaping request (a
fresh list, built with `+`, so the shared contents list is not
extended), with the structured-output directive attached and no tool
fields. -/
def formattingPayload (sysInstr : List Part) (payload : Payload)
    (final_text : String) : Payload :=
  { system_instruction := sysInstr
    contents := payload.contents
      ++ [⟨Role.user, [Part.text (formattingPrompt final_text)]⟩]
    tools := Option.none
    toolConfig := Option.none
    generationConfig := some "application/json" }

/-- The `structured_text` extraction of agent.py line 281,
`response["candidates"][0]["content"]["parts"][0]["text"]`;
`Option.none` stands for any raised `KeyError`/`IndexError` (or a
transport error on the request itself). -/
def formattedText : ApiResult → Option String
  | Except.error _ => Option.none
  | Except.ok resp =>
    match resp.candidates with
    | [] => Option.none
    | c :: _ =>
      match c.content with
      | Option.none => Option.none
      | some ct =>
        match ct.parts with
        | [] => Option.none
        | p :: _ =>
          match p with
          | Part.text s => some s
          | _ => Option.none

/-- `Agent._format_as_json` (agent.py lines 256-287): issue one
reshaping request (consuming exactly the next script entry), parse the
text of its first part as JSON, and on any failure whatsoever —
transport error, unusable response shape, or JSON parse failure —
return the raw `final_text` (the `except Exception` handler). -/
def formatAsJson (sysInstr : List Part) (parseJson : String → Option JValue)
    (payload : Payload) (final_text : String) :
    List ApiResult → Option RunResult
  | [] => Option.none
  | r :: _ =>
    let fp := formattingPayload sysInstr payload final_text
    match (formattedText r).bind parseJson with
    | some v => some ⟨PromptResult.json v, payload.contents, [fp]⟩
    | Option.none => some ⟨PromptResult.text final_text, payload.contents, [fp]⟩

/-- Message of the blocked-request error (agent.py lines 149-151):
`feedback.get("blockReason") if feedback else "Unknown"`, interpolated
into the message (`None` prints as `None`). -/
def blockReasonStr : Option Feedback → String
  | Option.none => "Unknown"
  | some f =>
    match f.blockReason with
    | some r => r
    | Option.none => "None"

/-- The blocked-request error message (agent.py line 151). -/
def blockedMsg (fb : Option Feedback) : String :=
  "Request blocked by API. Reason: " ++ blockReasonStr fb ++ "."

/-- The `while True` conversation loop of `Agent.prompt` (agent.py
lines 137-254), consuming one script entry per request.  A transport
error returns the error dictionary; a response without candidates
returns the blocked error; a candidate without `content` returns the
parse error; otherwise the parts are scanned, and a final text is
returned (after the deferred JSON pass, or direct parsing, per the
flags) or the loop recurses on the remaining script. -/
def promptLoop (tp : ToolProcessor) (parseJson : String → Option JValue)
    (sysInstr : List Part) (json_format apply_json_format_later : Bool) :
    List ApiResult → Payload → Option RunResult
  | [], _ => Option.none
  | Except.error e :: _, payload =>
    some ⟨PromptResult.error e ErrorDetails.noDetails, payload.contents, [payload]⟩
  | Except.ok response_data :: rest, payload =>
      match response_data.candidates with
      | [] =>
        some ⟨PromptResult.error (blockedMsg response_data.promptFeedback)
                (ErrorDetails.feedbackDetails response_data.promptFeedback),
              payload.contents, [payload]⟩
      | candidate :: _ =>
        match candidate.content with
        | Option.none =>
          some ⟨PromptResult.error "Error parsing API response: KeyError"
                  (ErrorDetails.responseDetails response_data),
                payload.contents, [payload]⟩
        | some content =>
          match processParts tp content.parts content.parts payload.contents with
          | PartsOutcome.finalText final_text new_contents =>
            if apply_json_format_later then
              match formatAsJson sysInstr parseJson
                      { payload with contents := new_contents } final_text rest with
              | some rr => some { rr with sent := payload :: rr.sent }
              | Option.none => Option.none
            else if json_format then
              match parseJson final_text with
              | some v => some ⟨PromptResult.json v, new_contents, [payload]⟩
              | Option.none =>
                some ⟨PromptResult.text final_text, new_contents, [payload]⟩
            else
              some ⟨PromptResult.text final_text, new_contents, [payload]⟩
          | PartsOutcome.exhausted new_contents =>
            match promptLoop tp parseJson sysInstr json_format
                    apply_json_format_later rest
                    { payload with contents := new_contents } with
            | some rr => some { rr with sent := payload :: rr.sent }
            | Option.none => Option.none

/-- The `Agent` state the orchestrator reads: its tool processor and
the `VariableManager.get_variables_info()` summary used for the system
prompt. -/
structure Agent where
  tool_processor : ToolProcessor
  variables_info : String

/-- `Agent._get_system_prompt` (agent.py lines 60-88): the tool list,
the variable summary and the fixed usage guidance. -/
def getSystemPrompt (tp : ToolProcessor) (variables_info : String) : String :=
  "Available tools:\n"
    ++ String.intercalate "\n"
        (tp.toolsJson.map (fun t => "- " ++ t.name ++ ": " ++ t.description))
    ++ "\n\nAvailable variables:\n" ++ variables_info
    ++ "\n\nIMPORTANT - Variable Usage: when you need a stored variable in a"
    ++ " function call you MUST pass an object whose single key is the word"
    ++ " variable naming it. Always perform one operation at a time and use"
    ++ " intermediate results from previous steps."

/-- The two-part `system_instruction` (agent.py lines 112-117 and
262-267): the caller system prompt (or empty string) followed by the
auto-generated block. -/
def mkSystemInstruction (system_prompt : Option String) (auto : String) :
    List Part :=
  [Part.text (system_prompt.getD ""), Part.text auto]

/-- Which list object the payload's `contents` entry is: the very list
the caller passed as `conversation_history`, or a fresh list made by
the orchestrator.  Renders the aliasing decision of agent.py line 108,
`current_contents = conversation_history if conversation_history else []`
(no copy is taken in the first case). -/
inductive ContentsRef where
  | callerList
  | freshList
deriving DecidableEq

/-- Everything `Agent.prompt` computes before the first request
(agent.py lines 100-133). -/
structure SetupResult where
  tool_processor : ToolProcessor
  payload : Payload
  contentsRef : ContentsRef
  apply_json_format_later : Bool

/-- The pre-loop phase of `Agent.prompt` (agent.py lines 100-133):
reset the tool processor's `_intermediate_results`, pick the contents
list (aliasing the caller's when truthy), build the payload, append
the user prompt, attach tool declarations and calling mode when tools
are registered, and attach the structured-output directive when JSON
is requested without tools. -/
def promptSetup (a : Agent) (user_prompt : String)
    (system_prompt : Option String) (json_format : Bool)
    (conversation_history : Option (List Turn)) : SetupResult :=
  let tp : ToolProcessor := { a.tool_processor with intermediateResults := [] }
  let refAndContents : ContentsRef × List Turn :=
    match conversation_history with
    | some h => if h.isEmpty then (ContentsRef.freshList, []) else (ContentsRef.callerList, h)
    | Option.none => (ContentsRef.freshList, [])
  let hasTools : Bool := !tp.toolsJson.isEmpty
  { tool_processor := tp
    payload :=
      { system_instruction :=
          mkSystemInstruction system_prompt (getSystemPrompt tp a.variables_info)
        contents := refAndContents.2 ++ [⟨Role.user, [Part.text user_prompt]⟩]
        tools := if hasTools then some tp.toolsJson else Option.none
        toolConfig := if hasTools then some "AUTO" else Option.none
        generationConfig :=
          if json_format && !hasTools then some "application/json" else Option.none }
    contentsRef := refAndContents.1
    apply_json_format_later := json_format && hasTools }

/-- `Agent.prompt` (agent.py lines 90-254): the setup phase followed by
the conversation loop. -/
def Agent.prompt (a : Agent) (parseJson : String → Option JValue)
    (user_prompt : String) (system_prompt : Option String)
    (json_format : Bool) (conversation_history : Option (List Turn))
    (script : List ApiResult) : Option RunResult :=
  let s := promptSetup a user_prompt system_prompt json_format conversation_history
  promptLoop s.tool_processor parseJson s.payload.system_instruction
    json_format s.apply_json_format_later script s.payload

/-- Modelled from the spec: a text part at position `i` is treated as
the candidate final answer when no part occurring after position `i`
in the same content contains a function call (§4.1 `PROCESSING_PARTS`,
TextPart rule). -/
def specTreatsAsFinal (parts : List Part) (i : Nat) : Bool :=
  (match parts.get? i with
   | some (Part.text _) => true
   | _ => false)
  && !((parts.drop (i + 1)).any Part.isFunctionCall)

/-- The endpoint URL of `APIClient._setup_credentials` /
`call_gemini_api` (api_client.py lines 32-36 and 62-66). -/
def buildUrl (region project_id model_name : String) : String :=
  "https://" ++ region ++ "-aiplatform.googleapis.com/v1/projects/"
    ++ project_id ++ "/locations/" ++ region
    ++ "/publishers/google/models/" ++ model_name ++ ":generateContent"

/-- The `APIClient` state (api_client.py lines 14-36).  `project_id`
comes from the service-account credentials. -/
structure APIClient where
  key_path : String
  model_name : String
  region : String
  project_id : String
  base_url : String
deriving DecidableEq

/-- `APIClient.__init__` together with `_setup_credentials`
(api_client.py lines 14-36): stores the configuration and builds
`base_url` from it. -/
def APIClient.setup (key_path model_name region project_id : String) : APIClient :=
  { key_path := key_path
    model_name := model_name
    region := region
    project_id := project_id
    base_url := buildUrl region project_id model_name }

/-- A per-call configuration override (api_client.py lines 59-66):
`config.get("model_name", ...)` and `config.get("region", ...)`.
`Option.none` at the call site stands for both `config=None` and the
falsy empty dictionary. -/
structure CallConfig where
  model_name : Option String
  region : Option String
deriving DecidableEq

/-- `APIClient.call_gemini_api` (api_client.py lines 45-68), restricted
to its configuration effect: the URL the request is posted to, and the
client state after the call (the method assigns to no field of
`self`). -/
def call_gemini_api (c : APIClient) (config : Option CallConfig) :
    String × APIClient :=
  let url :=
    match config with
    | Option.none => c.base_url
    | some cfg =>
      buildUrl (cfg.region.getD c.region) c.project_id
        (cfg.model_name.getD c.model_name)
  (url, c)

/-! Concrete fixtures used to exercise the definitions. -/

/-- A tool processor with no registered tools. -/
def tpEmpty : ToolProcessor :=
  ⟨[], fun _ => false, fun _ _ => Except.error "no tool", []⟩

/-- A tool processor with one registered tool `f` that succeeds,
storing its result under `var_0`. -/
def tpOne : ToolProcessor :=
  ⟨[⟨"f", "a tool"⟩], fun n => n == "f",
    fun _ _ => Except.ok (JValue.num 7, "var_0"), []⟩

/-- A tool processor with one registered tool `f` that raises `boom`. -/
def tpRaises : ToolProcessor :=
  ⟨[⟨"f", "a tool"⟩], fun n => n == "f", fun _ _ => Except.error "boom", []⟩

/-- An agent with no registered tools. -/
def agEmpty : Agent := ⟨tpEmpty, "vars"⟩

/-- An agent with the single registered tool `f`. -/
def agTool : Agent := ⟨tpOne, "vars"⟩

/-- A JSON parser that fails on every input. -/
def parseNone : String → Option JValue := fun _ => Option.none

/-- A JSON parser that succeeds on every input. -/
def parseAll : String → Option JValue := fun _ => some JValue.null

/-- A JSON parser that accepts exactly the text `ok`. -/
def parseOk : String → Option JValue :=
  fun s => if s == "ok" then some (JValue.num 1) else Option.none

/-- A response with a single text part. -/
def textResp (s : String) : GeminiResponse :=
  ⟨[⟨some ⟨[Part.text s]⟩⟩], Option.none⟩

/-- An empty request payload. -/
def payloadEmpty : Payload :=
  ⟨[], [], Option.none, Option.none, Option.none⟩

/-- The duplicate-text part list: the same text value occurs before and
after a function call. -/
def psC1 : List Part :=
  [Part.text "a", Part.functionCall "f" Option.none, Part.text "a"]

/-- A response whose single candidate carries `psC1`. -/
def respC1 : GeminiResponse := ⟨[⟨some ⟨psC1⟩⟩], Option.none⟩

/-- A one-turn prior transcript supplied by a caller. -/
def histC10 : List Turn := [⟨Role.user, [Part.text "old"]⟩]

/-! Invariant: the part scan and the conversation loop only ever append
to the shared `contents` list. -/

theorem prefixAppendTwo {α : Type} (c A B : List α) : c <+: c ++ A ++ B :=
  ⟨A ++ B, by simp⟩

theorem prefixAppendThree {α : Type} (c A B C : List α) :
    c <+: c ++ A ++ B ++ C :=
  ⟨A ++ B ++ C, by simp⟩

theorem processParts_extends (tp : ToolProcessor) (allParts : List Part) :
    ∀ (ps : List Part) (contents : List Turn),
      contents <+: (processParts tp allParts ps contents).contents := by
  intro ps
  induction ps with
  | nil =>
    intro contents
    simp [processParts, PartsOutcome.contents]
  | cons part rest ih =>
    intro contents
    cases part with
    | text s =>
      by_cases hm : hasMoreFunctionCalls allParts (Part.text s) = true
      · simpa [processParts, hm] using ih contents
      · simp [processParts, hm, PartsOutcome.contents]
    | functionCall name args =>
      by_cases hk : tp.hasTool name = true
      · cases hE : tp.executeTool name (args.getD (JValue.obj [])) with
        | ok pr =>
          cases pr with
          | mk fr vn =>
            have h1 := ih (contents
              ++ [⟨Role.model, [Part.functionCall name args]⟩]
              ++ [⟨Role.user, [Part.text (storedVarMsg vn)]⟩]
              ++ [⟨Role.user, [Part.functionResponse name
                    (FuncResponse.ok fr vn (pyTypeName fr))]⟩])
            have h2 := (prefixAppendThree contents _ _ _).trans h1
            simpa [processParts, hk, hE] using h2
        | error e =>
          have h1 := ih (contents
            ++ [⟨Role.model, [Part.functionCall name args]⟩]
            ++ [⟨Role.user, [Part.functionResponse name
                  (FuncResponse.err (execErrorMsg name e))]⟩])
          have h2 := (prefixAppendTwo contents _ _).trans h1
          simpa [processParts, hk, hE] using h2
      · have h1 := ih (contents
          ++ [⟨Role.model, [Part.functionCall name args]⟩]
          ++ [⟨Role.user, [Part.functionResponse name
                (FuncResponse.err (unknownToolMsg name))]⟩])
        have h2 := (prefixAppendTwo contents _ _).trans h1
        simpa [processParts, hk] using h2
    | functionResponse nm r =>
      simpa [processParts] using ih contents

theorem formatAsJson_contents (sysInstr : List Part)
    (parseJson : String → Option JValue) (payload : Payload)
    (final_text : String) (script : List ApiResult) (rr : RunResult)
    (h : formatAsJson sysInstr parseJson payload final_text script = some rr) :
    rr.contents = payload.contents := by
  cases script with
  | nil => simp [formatAsJson] at h
  | cons r rest =>
    simp only [formatAsJson] at h
    split at h
    · cases h
      rfl
    · cases h
      rfl

theorem promptLoop_extends (tp : ToolProcessor)
    (parseJson : String → Option JValue) (sysInstr : List Part)
    (json_format apply_json_format_later : Bool) :
    ∀ (script : List ApiResult) (payload : Payload) (rr : RunResult),
      promptLoop tp parseJson sysInstr json_format apply_json_format_later
        script payload = some rr →
      payload.contents <+: rr.contents := by
  intro script
  induction script with
  | nil =>
    intro payload rr h
    simp [promptLoop] at h
  | cons r rest ih =>
    intro payload rr h
    cases r with
    | error e =>
      simp only [promptLoop] at h
      cases h
      exact ⟨[], by simp⟩
    | ok response_data =>
      simp only [promptLoop] at h
      split at h
      · cases h
        exact ⟨[], by simp⟩
      · split at h
        · cases h
          exact ⟨[], by simp⟩
        · rename_i content hct
          split at h
          · rename_i final_text new_contents hp
            have hpp := processParts_extends tp content.parts content.parts
              payload.contents
            rw [hp] at hpp
            simp only [PartsOutcome.contents] at hpp
            split at h
            · split at h
              · rename_i rr2 hf
                cases h
                have hcc := formatAsJson_contents _ _ _ _ _ _ hf
                simp only at hcc
                simpa [hcc] using hpp
              · cases h
            · split at h
              · split at h
                · cases h
                  exact hpp
                · cases h
                  exact hpp
              · cases h
                exact hpp
          · rename_i new_contents hp
            have hpp := processParts_extends tp content.parts content.parts
              payload.contents
            rw [hp] at hpp
            simp only [PartsOutcome.contents] at hpp
            split at h
            · rename_i rr2 hrec
              cases h
              exact hpp.trans (ih _ rr2 hrec)
            · cases h

/-! Claim theorems. -/

/-- C1: the claim states the positional final-text rule — a text part is
the candidate final answer exactly when no later part of the same
content contains a function call — for every arrangement of parts,
including duplicated part values.  The code computes the position with
`content["parts"].index(part)`, which finds the FIRST part equal to the
current one, so on `psC1 = [text "a", functionCall f, text "a"]` the
trailing text is wrongly ignored: the scan exhausts the parts (instead
of finalizing, as `specTreatsAsFinal psC1 2 = true` demands) and the
loop issues a second request, answering with that response instead. -/
theorem c1_duplicate_text_divergence :
    specTreatsAsFinal psC1 2 = true
    ∧ processParts tpEmpty psC1 psC1 [] =
        PartsOutcome.exhausted
          [⟨Role.model, [Part.functionCall "f" Option.none]⟩,
           ⟨Role.user, [Part.functionResponse "f"
              (FuncResponse.err (unknownToolMsg "f"))]⟩]
    ∧ promptLoop tpEmpty parseNone [] false false
        [Except.ok respC1, Except.ok (textResp "b")] payloadEmpty =
      some ⟨PromptResult.text "b",
        [⟨Role.model, [Part.functionCall "f" Option.none]⟩,
         ⟨Role.user, [Part.functionResponse "f"
            (FuncResponse.err (unknownToolMsg "f"))]⟩],
        [payloadEmpty,
         { payloadEmpty with contents :=
            [⟨Role.model, [Part.functionCall "f" Option.none]⟩,
             ⟨Role.user, [Part.functionResponse "f"
                (FuncResponse.err (unknownToolMsg "f"))]⟩] }]⟩ :=
  ⟨rfl, rfl, rfl⟩

/-- C3: a function-call part naming an unregistered tool appends the
model Turn and then a user Turn whose function response is the
non-empty error message naming the tool, and scanning continues on the
remaining parts (the call is not terminated). -/
theorem c3_unknown_tool_recoverable (tp : ToolProcessor)
    (allParts rest : List Part) (contents : List Turn) (nm : String)
    (args : Option JValue) (h : tp.hasTool nm = false) :
    processParts tp allParts (Part.functionCall nm args :: rest) contents =
      processParts tp allParts rest
        (contents ++ [⟨Role.model, [Part.functionCall nm args]⟩,
          ⟨Role.user, [Part.functionResponse nm
            (FuncResponse.err (unknownToolMsg nm))]⟩])
    ∧ unknownToolMsg nm = "Model attempted to call unknown function " ++ nm ++ "."
    ∧ unknownToolMsg nm ≠ "" := by
  refine ⟨?_, rfl, ?_⟩
  · simp only [processParts, h, Bool.false_eq_true, if_false]
    rw [List.append_assoc]
    rfl
  · intro hh
    have hlen := congrArg String.length hh
    simp [unknownToolMsg, String.length_append] at hlen
    exact absurd hlen.2 (by decide)

/-- Witness for C3 at a concrete unknown tool. -/
theorem c3_witness :
    tpEmpty.hasTool "g" = false
    ∧ (processParts tpEmpty [] [Part.functionCall "g" Option.none] [] =
        processParts tpEmpty [] []
          [⟨Role.model, [Part.functionCall "g" Option.none]⟩,
           ⟨Role.user, [Part.functionResponse "g"
              (FuncResponse.err (unknownToolMsg "g"))]⟩]
      ∧ unknownToolMsg "g" =
          "Model attempted to call unknown function " ++ "g" ++ "."
      ∧ unknownToolMsg "g" ≠ "") :=
  ⟨rfl, c3_unknown_tool_recoverable tpEmpty [] [] [] "g" Option.none rfl⟩

/-- C5: a response whose candidate list is empty (or absent) makes the
loop return the structured blocked-request error carrying the block
reason and the feedback as details — with reason `Unknown` when the
feedback itself is absent — rather than raising. -/
theorem c5_blocked_response (tp : ToolProcessor)
    (parseJson : String → Option JValue) (sysInstr : List Part)
    (json_format apply_json_format_later : Bool) (fb : Option Feedback)
    (rest : List ApiResult) (payload : Payload) :
    promptLoop tp parseJson sysInstr json_format apply_json_format_later
        (Except.ok ⟨[], fb⟩ :: rest) payload =
      some ⟨PromptResult.error (blockedMsg fb) (ErrorDetails.feedbackDetails fb),
            payload.contents, [payload]⟩
    ∧ blockedMsg Option.none = "Request blocked by API. Reason: Unknown."
    ∧ (∀ r, blockedMsg (some ⟨some r⟩) =
        "Request blocked by API. Reason: " ++ r ++ ".")
    ∧ blockedMsg (some ⟨Option.none⟩) = "Request blocked by API. Reason: None." :=
  ⟨rfl, by decide, fun r => rfl, by decide⟩

/-- C7: with no registered tools, the assembled payload omits both the
tool-declaration field and the calling-mode field. -/
theorem c7_no_tools_omitted (a : Agent) (up : String) (sp : Option String)
    (jf : Bool) (ch : Option (List Turn))
    (h : a.tool_processor.toolsJson = []) :
    (promptSetup a up sp jf ch).payload.tools = Option.none
    ∧ (promptSetup a up sp jf ch).payload.toolConfig = Option.none := by
  constructor <;> simp [promptSetup, h]

/-- Witness for C7 with a concrete tool-less agent. -/
theorem c7_witness :
    (promptSetup agEmpty "hi" Option.none false Option.none).payload.tools
      = Option.none
    ∧ (promptSetup agEmpty "hi" Option.none false Option.none).payload.toolConfig
      = Option.none :=
  c7_no_tools_omitted agEmpty "hi" Option.none false Option.none rfl

/-- C8: the setup phase of every call resets the tool processor's
transient result-naming scope to empty — whatever it held from a
previous call — before any request is sent or tool executed (the loop
only ever sees the reset processor), leaving the rest of the processor
untouched. -/
theorem c8_intermediate_results_reset (a : Agent) (up : String)
    (sp : Option String) (jf : Bool) (ch : Option (List Turn)) :
    (promptSetup a up sp jf ch).tool_processor.intermediateResults = []
    ∧ (promptSetup a up sp jf ch).tool_processor.toolsJson
        = a.tool_processor.toolsJson
    ∧ (promptSetup a up sp jf ch).tool_processor.hasTool
        = a.tool_processor.hasTool
    ∧ (promptSetup a up sp jf ch).tool_processor.executeTool
        = a.tool_processor.executeTool :=
  ⟨rfl, rfl, rfl, rfl⟩

/-- C9: a per-call configuration override only changes the URL of that
single request; every stored field of the client (`model_name`,
`region`, `base_url`, `project_id`) is unchanged after the call, and a
subsequent call without a config uses the originally configured URL. -/
theorem c9_config_override_is_per_call (c : APIClient) (cfg : CallConfig) :
    (call_gemini_api c (some cfg)).1 =
      buildUrl (cfg.region.getD c.region) c.project_id
        (cfg.model_name.getD c.model_name)
    ∧ (call_gemini_api c (some cfg)).2.model_name = c.model_name
    ∧ (call_gemini_api c (some cfg)).2.region = c.region
    ∧ (call_gemini_api c (some cfg)).2.base_url = c.base_url
    ∧ (call_gemini_api c (some cfg)).2.project_id = c.project_id
    ∧ (call_gemini_api c Option.none).1 = c.base_url
    ∧ (call_gemini_api (call_gemini_api c (some cfg)).2 Option.none).1
        = c.base_url
    ∧ (∀ k m rg p,
        (call_gemini_api (APIClient.setup k m rg p) Option.none).1
          = buildUrl rg p m) :=
  ⟨rfl, rfl, rfl, rfl, rfl, rfl, rfl, fun _ _ _ _ => rfl⟩

/-- C2, counterexample to the claim as stated: with `jsonFormat`
requested, one registered tool, and a parser that succeeds on every
string (`parseAll`), the claim allows the raw final text to be
returned only when parsing the returned text fails — which here it
never can.  Yet when the single reshaping request raises a transport
error, the code's `except Exception` handler returns the raw final
text `hello` anyway. -/
theorem c2_counterexample :
    Agent.prompt agTool parseAll "hi" Option.none true Option.none
        [Except.ok (textResp "hello"), Except.error "transport down"]
      = some ⟨PromptResult.text "hello",
          [⟨Role.user, [Part.text "hi"]⟩],
          [(promptSetup agTool "hi" Option.none true Option.none).payload,
           formattingPayload
             (promptSetup agTool "hi" Option.none true Option.none).payload.system_instruction
             (promptSetup agTool "hi" Option.none true Option.none).payload
             "hello"]⟩
    ∧ parseAll "hello" = some JValue.null :=
  ⟨rfl, rfl⟩

/-- C2 (amended): with `jsonFormat` requested and tools registered
(`apply_json_format_later` is exactly that conjunction, last conjunct),
once the loop reaches a final text `s`, exactly one additional request
is issued — the conclusion does not depend on the script beyond the
single entry `r` consumed by it — whose payload reuses the accumulated
transcript with the reshaping request appended and the
structured-output directive attached; if that request yields a text
that parses, the parsed value is returned, and the raw final text is
returned exactly when no parsed value is obtained (the request failed,
its response had no leading text part, or parsing failed). -/
theorem c2_deferred_formatting (tp : ToolProcessor)
    (parseJson : String → Option JValue) (sysInstr : List Part)
    (payload : Payload) (resp : GeminiResponse) (cand : Candidate)
    (cands : List Candidate) (ct : Content) (s : String) (cs : List Turn)
    (r : ApiResult) (rest : List ApiResult)
    (hc : resp.candidates = cand :: cands)
    (hct : cand.content = some ct)
    (hp : processParts tp ct.parts ct.parts payload.contents =
      PartsOutcome.finalText s cs) :
    promptLoop tp parseJson sysInstr true true
        (Except.ok resp :: r :: rest) payload =
      some ⟨(match (formattedText r).bind parseJson with
             | some v => PromptResult.json v
             | Option.none => PromptResult.text s),
            cs,
            [payload, formattingPayload sysInstr { payload with contents := cs } s]⟩
    ∧ (formattingPayload sysInstr { payload with contents := cs } s).contents
        = cs ++ [⟨Role.user, [Part.text (formattingPrompt s)]⟩]
    ∧ (formattingPayload sysInstr { payload with contents := cs } s).generationConfig
        = some "application/json"
    ∧ (∀ t v, formattedText r = some t → parseJson t = some v →
        promptLoop tp parseJson sysInstr true true
            (Except.ok resp :: r :: rest) payload =
          some ⟨PromptResult.json v, cs,
            [payload, formattingPayload sysInstr { payload with contents := cs } s]⟩)
    ∧ (∀ a up sp ch, (promptSetup a up sp true ch).apply_json_format_later
        = !a.tool_processor.toolsJson.isEmpty) := by
  have hmain : promptLoop tp parseJson sysInstr true true
      (Except.ok resp :: r :: rest) payload =
    some ⟨(match (formattedText r).bind parseJson with
           | some v => PromptResult.json v
           | Option.none => PromptResult.text s),
          cs,
          [payload, formattingPayload sysInstr { payload with contents := cs } s]⟩ := by
    cases hb : (formattedText r).bind parseJson with
    | none => simp [promptLoop, hc, hct, hp, formatAsJson, hb]
    | some v => simp [promptLoop, hc, hct, hp, formatAsJson, hb]
  refine ⟨hmain, rfl, rfl, ?_, fun a up sp ch => by simp [promptSetup]⟩
  intro t v ht hv
  have hb : (formattedText r).bind parseJson = some v := by
    rw [ht]
    simpa using hv
  rw [hmain, hb]

/-- Witness for C2 (amended) on a concrete deferred-formatting run that
parses successfully. -/
theorem c2_witness :
    promptLoop tpOne parseOk [] true true
        [Except.ok (textResp "hello"), Except.ok (textResp "ok")] payloadEmpty
      = some ⟨PromptResult.json (JValue.num 1), [],
          [payloadEmpty,
           formattingPayload [] { payloadEmpty with contents := ([] : List Turn) }
             "hello"]⟩ :=
  (c2_deferred_formatting tpOne parseOk [] payloadEmpty (textResp "hello")
      ⟨some ⟨[Part.text "hello"]⟩⟩ [] ⟨[Part.text "hello"]⟩ "hello" []
      (Except.ok (textResp "ok")) [] rfl rfl rfl).2.2.2.1
    "ok" (JValue.num 1) rfl rfl

/-- C4, counterexample to the claim as stated: the registered tool `f`
raises, but because a final text `done` follows the failing call in
the same response, the call finalizes with that text: the script holds
a single response and the run completes with exactly one sent payload,
so the loop does NOT proceed to request another model response. -/
theorem c4_counterexample :
    tpRaises.hasTool "f" = true
    ∧ tpRaises.executeTool "f" (JValue.obj []) = Except.error "boom"
    ∧ promptLoop tpRaises parseNone [] false false
        [Except.ok ⟨[⟨some ⟨[Part.functionCall "f" Option.none,
            Part.text "done"]⟩⟩], Option.none⟩] payloadEmpty
      = some ⟨PromptResult.text "done",
          [⟨Role.model, [Part.functionCall "f" Option.none]⟩,
           ⟨Role.user, [Part.functionResponse "f"
              (FuncResponse.err (execErrorMsg "f" "boom"))]⟩],
          [payloadEmpty]⟩ :=
  ⟨rfl, rfl, rfl⟩

/-- C4 (amended): when a registered tool raises, the call is not
terminated: the model Turn and a user Turn carrying the error message
naming the tool and the failure are appended, and scanning continues
on the remaining parts; when the response exhausts without a final
text, the loop proceeds to request another model response (last
conjunct) — but if a final text follows in the same response, the call
finalizes with it instead. -/
theorem c4_tool_exception_recoverable (tp : ToolProcessor)
    (allParts rest : List Part) (contents : List Turn) (nm : String)
    (args : Option JValue) (e : String)
    (h1 : tp.hasTool nm = true)
    (h2 : tp.executeTool nm (args.getD (JValue.obj [])) = Except.error e) :
    processParts tp allParts (Part.functionCall nm args :: rest) contents =
      processParts tp allParts rest
        (contents ++ [⟨Role.model, [Part.functionCall nm args]⟩,
          ⟨Role.user, [Part.functionResponse nm
            (FuncResponse.err (execErrorMsg nm e))]⟩])
    ∧ execErrorMsg nm e = "Error during execution of tool " ++ nm ++ ": " ++ e
    ∧ execErrorMsg nm e ≠ ""
    ∧ (∀ (parseJson : String → Option JValue) (sysInstr : List Part)
        (json_format apply_json_format_later : Bool)
        (rest2 : List ApiResult) (payload : Payload) (resp : GeminiResponse)
        (cand : Candidate) (cands : List Candidate) (ct : Content)
        (cs : List Turn),
        resp.candidates = cand :: cands → cand.content = some ct →
        processParts tp ct.parts ct.parts payload.contents =
          PartsOutcome.exhausted cs →
        promptLoop tp parseJson sysInstr json_format apply_json_format_later
            (Except.ok resp :: rest2) payload =
          match promptLoop tp parseJson sysInstr json_format
              apply_json_format_later rest2 { payload with contents := cs } with
          | some rr => some { rr with sent := payload :: rr.sent }
          | Option.none => Option.none) := by
  refine ⟨?_, rfl, ?_, ?_⟩
  · simp only [processParts, h1, if_true, h2]
    rw [List.append_assoc]
    rfl
  · intro hh
    have hlen := congrArg String.length hh
    simp [execErrorMsg, String.length_append] at hlen
    exact absurd hlen.1.2 (by decide)
  · intro parseJson sysInstr json_format apply_json_format_later rest2 payload
      resp cand cands ct cs hc hct hp
    simp [promptLoop, hc, hct, hp]

/-- Witness for C4 (amended): after the raising call exhausts the
response, the loop consumes the next script entry. -/
theorem c4_witness :
    promptLoop tpRaises parseNone [] false false
        [Except.ok ⟨[⟨some ⟨[Part.functionCall "f" Option.none]⟩⟩], Option.none⟩,
         Except.ok (textResp "b")] payloadEmpty
      = match promptLoop tpRaises parseNone [] false false
            [Except.ok (textResp "b")]
            { payloadEmpty with contents :=
                [⟨Role.model, [Part.functionCall "f" Option.none]⟩,
                 ⟨Role.user, [Part.functionResponse "f"
                    (FuncResponse.err (execErrorMsg "f" "boom"))]⟩] } with
        | some rr => some { rr with sent := payloadEmpty :: rr.sent }
        | Option.none => Option.none :=
  (c4_tool_exception_recoverable tpRaises [] [] [] "f" Option.none "boom"
      rfl rfl).2.2.2
    parseNone [] false false [Except.ok (textResp "b")] payloadEmpty
    ⟨[⟨some ⟨[Part.functionCall "f" Option.none]⟩⟩], Option.none⟩
    ⟨some ⟨[Part.functionCall "f" Option.none]⟩⟩ []
    ⟨[Part.functionCall "f" Option.none]⟩
    [⟨Role.model, [Part.functionCall "f" Option.none]⟩,
     ⟨Role.user, [Part.functionResponse "f"
        (FuncResponse.err (execErrorMsg "f" "boom"))]⟩]
    rfl rfl rfl

/-- C6: with `jsonFormat` requested and no registered tools (so the
original request already carries the structured-output directive and
no deferred pass is scheduled, last conjunct), a final text that
parses is returned as the parsed value and a malformed final text is
returned raw and unchanged, without throwing. -/
theorem c6_json_without_tools (tp : ToolProcessor)
    (parseJson : String → Option JValue) (sysInstr : List Part)
    (payload : Payload) (resp : GeminiResponse) (cand : Candidate)
    (cands : List Candidate) (ct : Content) (s : String) (cs : List Turn)
    (rest : List ApiResult)
    (hc : resp.candidates = cand :: cands)
    (hct : cand.content = some ct)
    (hp : processParts tp ct.parts ct.parts payload.contents =
      PartsOutcome.finalText s cs) :
    promptLoop tp parseJson sysInstr true false
        (Except.ok resp :: rest) payload =
      some ⟨(match parseJson s with
             | some v => PromptResult.json v
             | Option.none => PromptResult.text s), cs, [payload]⟩
    ∧ (∀ v, parseJson s = some v →
        promptLoop tp parseJson sysInstr true false
            (Except.ok resp :: rest) payload =
          some ⟨PromptResult.json v, cs, [payload]⟩)
    ∧ (parseJson s = Option.none →
        promptLoop tp parseJson sysInstr true false
            (Except.ok resp :: rest) payload =
          some ⟨PromptResult.text s, cs, [payload]⟩)
    ∧ (∀ a up sp ch, a.tool_processor.toolsJson = [] →
        (promptSetup a up sp true ch).payload.generationConfig
            = some "application/json"
        ∧ (promptSetup a up sp true ch).apply_json_format_later = false) := by
  have hmain : promptLoop tp parseJson sysInstr true false
      (Except.ok resp :: rest) payload =
    some ⟨(match parseJson s with
           | some v => PromptResult.json v
           | Option.none => PromptResult.text s), cs, [payload]⟩ := by
    cases hps : parseJson s with
    | none => simp [promptLoop, hc, hct, hp, hps]
    | some v => simp [promptLoop, hc, hct, hp, hps]
  refine ⟨hmain, ?_, ?_, ?_⟩
  · intro v hv
    rw [hmain, hv]
  · intro hv
    rw [hmain, hv]
  · intro a up sp ch h
    constructor <;> simp [promptSetup, h]

/-- Witness for C6 on a parse success and a parse failure. -/
theorem c6_witness :
    promptLoop tpEmpty parseOk [] true false
        [Except.ok (textResp "ok")] payloadEmpty
      = some ⟨PromptResult.json (JValue.num 1), [], [payloadEmpty]⟩
    ∧ promptLoop tpEmpty parseOk [] true false
        [Except.ok (textResp "bad")] payloadEmpty
      = some ⟨PromptResult.text "bad", [], [payloadEmpty]⟩ :=
  ⟨(c6_json_without_tools tpEmpty parseOk [] payloadEmpty (textResp "ok")
      ⟨some ⟨[Part.text "ok"]⟩⟩ [] ⟨[Part.text "ok"]⟩ "ok" [] []
      rfl rfl rfl).2.1 (JValue.num 1) rfl,
   (c6_json_without_tools tpEmpty parseOk [] payloadEmpty (textResp "bad")
      ⟨some ⟨[Part.text "bad"]⟩⟩ [] ⟨[Part.text "bad"]⟩ "bad" [] []
      rfl rfl rfl).2.2.1 rfl⟩

/-- C10: a caller-supplied non-empty prior transcript is aliased as the
request's contents list (no copy: `contentsRef` is the caller's list),
the user prompt is appended directly to it, and every Turn appended
during the run extends that same list, so after the run the caller's
list carries the original history followed by the user prompt as a
prefix of everything appended. -/
theorem c10_history_mutated_in_place (a : Agent)
    (parseJson : String → Option JValue) (up : String) (sp : Option String)
    (jf : Bool) (h : List Turn) (script : List ApiResult) (rr : RunResult)
    (hne : h ≠ []) :
    (promptSetup a up sp jf (some h)).contentsRef = ContentsRef.callerList
    ∧ (promptSetup a up sp jf (some h)).payload.contents
        = h ++ [⟨Role.user, [Part.text up]⟩]
    ∧ (Agent.prompt a parseJson up sp jf (some h) script = some rr →
        h ++ [⟨Role.user, [Part.text up]⟩] <+: rr.contents) := by
  have hie : h.isEmpty = false := by
    cases h with
    | nil => exact absurd rfl hne
    | cons x xs => rfl
  have hpc : (promptSetup a up sp jf (some h)).payload.contents
      = h ++ [⟨Role.user, [Part.text up]⟩] := by
    simp [promptSetup, hie]
  refine ⟨by simp [promptSetup, hie], hpc, ?_⟩
  intro hrun
  simp only [Agent.prompt] at hrun
  have hext := promptLoop_extends _ parseJson _ jf _ script
    (promptSetup a up sp jf (some h)).payload rr hrun
  rw [hpc] at hext
  exact hext

/-- Witness for C10 on a concrete one-turn history and a one-response
run. -/
theorem c10_witness :
    (promptSetup agEmpty "hi" Option.none false (some histC10)).contentsRef
      = ContentsRef.callerList
    ∧ histC10 ++ [⟨Role.user, [Part.text "hi"]⟩] <+:
        [⟨Role.user, [Part.text "old"]⟩, ⟨Role.user, [Part.text "hi"]⟩] :=
  have happ := c10_history_mutated_in_place agEmpty parseNone "hi" Option.none
    false histC10 [Except.ok (textResp "b")]
    ⟨PromptResult.text "b",
     [⟨Role.user, [Part.text "old"]⟩, ⟨Role.user, [Part.text "hi"]⟩],
     [(promptSetup agEmpty "hi" Option.none false (some histC10)).payload]⟩
    (by decide)
  ⟨happ.1, happ.2.2 rfl⟩

end VertexAgent
